import Mathlib

/-!
Verification of the jewelry-sketch preprocessing server
(`preprocess_server.py`).

The OpenCV (`cv2`) image transforms are single calls into an external
library; they are modelled by an abstract interface `CV2`, and every
theorem below holds for every implementation of that interface.  All
control flow, data flow, numeric constants and literal strings of
`run_pipeline`, `img_to_base64` and the HTTP handler methods are embedded
faithfully from the source.
-/

/-- A single-channel (grayscale) raster: rows of 8-bit pixel values. -/
structure ImgGray where
  pixels : List (List Nat)
  deriving DecidableEq

/-- A 3-channel (BGR) raster: rows of (b, g, r) 8-bit triples. -/
structure ImgBGR where
  pixels : List (List (Nat × Nat × Nat))
  deriving DecidableEq

/-- Python `h, w = original.shape[:2]`: the number of pixel rows. -/
def heightOf (o : ImgBGR) : Nat := o.pixels.length

/-- Python `h, w = original.shape[:2]`: the number of pixel columns, read
off the first row (numpy rasters are rectangular). -/
def widthOf (o : ImgBGR) : Nat := (o.pixels.headD []).length

/-- Python `np.frombuffer(img_bytes, np.uint8)`: a byte string viewed as a
uint8 array. -/
def np_frombuffer (img_bytes : List Nat) : List Nat := img_bytes

/-- Python `cv2.bitwise_not` on a uint8 raster: every pixel p becomes 255 - p. -/
def bitwise_not (g : ImgGray) : ImgGray :=
  ⟨g.pixels.map (fun row => row.map (fun p => 255 - p))⟩

/-- Python `np.sum(g > t)`: the number of pixels strictly above `t`. -/
def countAbove (t : Nat) (g : ImgGray) : Nat :=
  (g.pixels.map (fun row => (row.filter (fun p => decide (t < p))).length)).sum

/-- Python `g.size`: the total number of pixels of the raster. -/
def size (g : ImgGray) : Nat := (g.pixels.map List.length).sum

/-- The alphabet used by Python `base64.b64encode`. -/
def b64Table : String :=
  "ABCDEFGHIJKLMNOPQRSTUVWXYZabcdefghijklmnopqrstuvwxyz0123456789+/"

/-- The base64 digit for a 6-bit value. -/
def b64Char (n : Nat) : Char := b64Table.toList.getD n 'A'

/-- Python `base64.b64encode` on a byte list (RFC 4648, with padding). -/
def b64encode : List Nat → String
  | [] => ""
  | [a] =>
      String.mk [ b64Char (a / 4), b64Char (a % 4 * 16), '=', '=' ]
  | [a, b] =>
      String.mk [ b64Char (a / 4), b64Char (a % 4 * 16 + b / 16), b64Char (b % 16 * 4), '=' ]
  | a :: b :: c :: rest =>
      String.mk [ b64Char (a / 4), b64Char (a % 4 * 16 + b / 16),
                  b64Char (b % 16 * 4 + c / 64), b64Char (c % 64) ] ++ b64encode rest

/-- OpenCV flag constant cv2.IMREAD_COLOR. -/
def IMREAD_COLOR : Int := 1

/-- OpenCV flag constant cv2.ADAPTIVE_THRESH_GAUSSIAN_C. -/
def ADAPTIVE_THRESH_GAUSSIAN_C : Int := 1

/-- OpenCV flag constant cv2.THRESH_BINARY. -/
def THRESH_BINARY : Int := 0

/-- OpenCV flag constant cv2.MORPH_ELLIPSE. -/
def MORPH_ELLIPSE : Int := 2

/-- OpenCV flag constant cv2.MORPH_CLOSE. -/
def MORPH_CLOSE : Int := 3

/-- Abstract interface to the OpenCV library functions called by the
server, in the order used: `imdecode buf flag`, `imencode ext img`,
`cvtColor` at codes COLOR_BGR2GRAY and COLOR_GRAY2BGR (split into two
typed fields), `bilateralFilter src d sigmaColor sigmaSpace`,
`createCLAHE clipLimit tileGridSize` fused with the `.apply` call,
`adaptiveThreshold src maxValue adaptiveMethod thresholdType blockSize C`,
`getStructuringElement shape ksize`, `morphologyEx src op kernel iterations`,
`medianBlur src ksize`, `convertScaleAbs src alpha beta`,
`Canny image threshold1 threshold2`.  The pixel-level behaviour of these
library routines lives outside the repository; the theorems below hold for
every implementation `cv : CV2`. -/
structure CV2 where
  imdecode : List Nat → Int → Option ImgBGR
  imencode : String → ImgBGR → Option (List Nat)
  cvtColor_BGR2GRAY : ImgBGR → ImgGray
  cvtColor_GRAY2BGR : ImgGray → ImgBGR
  bilateralFilter : ImgGray → Nat → Nat → Nat → ImgGray
  createCLAHE : Rat → Nat × Nat → ImgGray → ImgGray
  adaptiveThreshold : ImgGray → Nat → Int → Int → Nat → Int → ImgGray
  getStructuringElement : Int → Nat × Nat → List (List Nat)
  morphologyEx : ImgGray → Int → List (List Nat) → Nat → ImgGray
  medianBlur : ImgGray → Nat → ImgGray
  convertScaleAbs : ImgGray → Rat → Rat → ImgGray
  Canny : ImgGray → Nat → Nat → ImgGray

/-- Source `img_to_base64(img, fmt=".jpg")`: encode an OpenCV raster as a
base64 data URL, or return the empty string when `cv2.imencode` fails.
The default argument `fmt=".jpg"` is passed explicitly by callers here. -/
def img_to_base64 (cv : CV2) (img : ImgBGR) (fmt : String) : String :=
  match cv.imencode fmt img with
  | none => ""
  | some buf =>
    let b64 := b64encode buf
    let mime := if fmt = ".jpg" then "image/jpeg" else "image/png"
    "data:" ++ mime ++ ";base64," ++ b64

/-- One labeled pipeline step: the dict `\x7b name, description, image \x7d`. -/
structure Step where
  name : String
  description : String
  image : String
  deriving DecidableEq

/-- The dictionary returned by `run_pipeline`: it carries either an
`error` entry or a `steps` entry; the two possible keys of the JSON object
are modelled as two optional fields. -/
structure PipelineResult where
  error : Option String
  steps : Option (List Step)
  deriving DecidableEq

/-- Source `run_pipeline(img_bytes)`, translated clause by clause. -/
def run_pipeline (cv : CV2) (img_bytes : List Nat) : PipelineResult :=
  let arr := np_frombuffer img_bytes
  match cv.imdecode arr IMREAD_COLOR with
  | none => ⟨some "Failed to decode image", none⟩
  | some original =>
    let h := heightOf original
    let w := widthOf original
    let step_original : Step :=
      ⟨ "Original",
        "Input image as received (" ++ toString w ++ "×" ++ toString h ++ ")",
        img_to_base64 cv original ".jpg" ⟩
    let gray := cv.cvtColor_BGR2GRAY original
    let step_gray : Step :=
      ⟨ "① Grayscale",
        "Convert to single-channel grayscale. Removes color noise, reduces data for processing.",
        img_to_base64 cv (cv.cvtColor_GRAY2BGR gray) ".jpg" ⟩
    let bilateral := cv.bilateralFilter gray 9 75 75
    let step_bilateral : Step :=
      ⟨ "② Bilateral Filter",
        "Denoise while preserving edges. d=9, σColor=75, σSpace=75. Smooths paper texture without blurring pencil lines.",
        img_to_base64 cv (cv.cvtColor_GRAY2BGR bilateral) ".jpg" ⟩
    let enhanced := cv.createCLAHE 3 (8, 8) bilateral
    let step_clahe : Step :=
      ⟨ "③ CLAHE",
        "Contrast Limited Adaptive Histogram Equalization. clipLimit=3.0, grid=8×8. Makes faint pencil strokes visible without blowing out highlights.",
        img_to_base64 cv (cv.cvtColor_GRAY2BGR enhanced) ".jpg" ⟩
    let thresh := cv.adaptiveThreshold enhanced 255 ADAPTIVE_THRESH_GAUSSIAN_C THRESH_BINARY 21 10
    let step_thresh : Step :=
      ⟨ "④ Adaptive Threshold",
        "Gaussian adaptive threshold. blockSize=21, C=10. Separates lines from background even with uneven lighting. Paper → white, lines → black.",
        img_to_base64 cv (cv.cvtColor_GRAY2BGR thresh) ".jpg" ⟩
    let kernel := cv.getStructuringElement MORPH_ELLIPSE (2, 2)
    let closed := cv.morphologyEx thresh MORPH_CLOSE kernel 1
    let step_closed : Step :=
      ⟨ "⑤ Morphological Close",
        "Close operation with 2×2 ellipse kernel. Fills tiny gaps in pencil lines without thickening them too much.",
        img_to_base64 cv (cv.cvtColor_GRAY2BGR closed) ".jpg" ⟩
    -- white_ratio = np.sum(closed > 127) / closed.size, compared with 0.5.
    -- The comparison is expressed integrally: white_ratio < 0.5 iff
    -- 2 * count < size (at size = 0 numpy yields nan, and nan < 0.5 is
    -- false, matching 0 < 0).
    let final0 :=
      if 2 * countAbove 127 closed < size closed then bitwise_not closed else closed
    let invert_note :=
      if 2 * countAbove 127 closed < size closed then " (inverted — detected dark background)"
      else " (no inversion needed)"
    let final := cv.medianBlur final0 3
    let step_final : Step :=
      ⟨ "⑥ Final Cleanup",
        "Median blur (3px) to remove speckles" ++ invert_note ++ ". Clean dark lines on white background, ready for Gemini.",
        img_to_base64 cv (cv.cvtColor_GRAY2BGR final) ".jpg" ⟩
    let alt_light := cv.adaptiveThreshold enhanced 255 ADAPTIVE_THRESH_GAUSSIAN_C THRESH_BINARY 31 6
    let step_altA : Step :=
      ⟨ "Alt A: Light Touch",
        "Less aggressive threshold (blockSize=31, C=6). Preserves more subtle shading and detail at the cost of some background noise.",
        img_to_base64 cv (cv.cvtColor_GRAY2BGR alt_light) ".jpg" ⟩
    -- the source also binds clahe_only = cvtColor(enhanced, GRAY2BGR) and never uses it
    let _clahe_only := cv.cvtColor_GRAY2BGR enhanced
    let clahe_bright := cv.convertScaleAbs enhanced (13 / 10) 40
    let step_altB : Step :=
      ⟨ "Alt B: CLAHE Only (No Threshold)",
        "Just contrast enhancement + brightness boost (α=1.3, β=40). Preserves all tonal information — pencil pressure, shading, soft edges. Least destructive.",
        img_to_base64 cv (cv.cvtColor_GRAY2BGR clahe_bright) ".jpg" ⟩
    let edges := cv.Canny bilateral 30 100
    let edges_inv := bitwise_not edges
    let step_altC : Step :=
      ⟨ "Alt C: Canny Edge Detection",
        "Canny edges (low=30, high=100). Extracts clean line art. Very clean but loses all shading and pencil weight information.",
        img_to_base64 cv (cv.cvtColor_GRAY2BGR edges_inv) ".jpg" ⟩
    ⟨none, some [step_original, step_gray, step_bilateral, step_clahe, step_thresh,
                 step_closed, step_final, step_altA, step_altB, step_altC]⟩

/-- The `gray` intermediate of the pipeline, as a function of the decoded input. -/
def grayOf (cv : CV2) (o : ImgBGR) : ImgGray := cv.cvtColor_BGR2GRAY o

/-- The `bilateral` intermediate of the pipeline. -/
def bilateralOf (cv : CV2) (o : ImgBGR) : ImgGray := cv.bilateralFilter (grayOf cv o) 9 75 75

/-- The `enhanced` intermediate of the pipeline. -/
def enhancedOf (cv : CV2) (o : ImgBGR) : ImgGray := cv.createCLAHE 3 (8, 8) (bilateralOf cv o)

/-- The `thresh` intermediate of the pipeline. -/
def threshOf (cv : CV2) (o : ImgBGR) : ImgGray :=
  cv.adaptiveThreshold (enhancedOf cv o) 255 ADAPTIVE_THRESH_GAUSSIAN_C THRESH_BINARY 21 10

/-- The `closed` intermediate of the pipeline. -/
def closedOf (cv : CV2) (o : ImgBGR) : ImgGray :=
  cv.morphologyEx (threshOf cv o) MORPH_CLOSE (cv.getStructuringElement MORPH_ELLIPSE (2, 2)) 1

/-- The polarity-corrected raster of step 6, before the final median blur. -/
def polarityOf (cv : CV2) (o : ImgBGR) : ImgGray :=
  if 2 * countAbove 127 (closedOf cv o) < size (closedOf cv o) then bitwise_not (closedOf cv o)
  else closedOf cv o

/-- The final cleaned raster of step 6. -/
def finalOf (cv : CV2) (o : ImgBGR) : ImgGray := cv.medianBlur (polarityOf cv o) 3

/-- Stands for the fixed static HTML viewer page embedded in the source.
Its text is served verbatim on every GET request and never inspected by
any handler logic, so only the document header line is reproduced. -/
def HTML_PAGE : String := "<!DOCTYPE html>"

/-- An HTTP response as produced by the handler: status code, the optional
Content-Type header, and the body written to the socket. -/
structure HttpResponse where
  status : Nat
  contentType : Option String
  body : String
  deriving DecidableEq

/-- Source `Handler.do_GET`: sends 200, Content-Type text/html and the
static page, whatever the request path is (the source never reads
`self.path` in `do_GET`). -/
def do_GET (_path : String) : HttpResponse := ⟨200, some "text/html", HTML_PAGE⟩

/-- Hexadecimal digit for a value below 16. -/
def toHexDigit (n : Nat) : Char :=
  if n < 10 then Char.ofNat (48 + n) else Char.ofNat (87 + n)

/-- Four-digit lowercase hexadecimal rendering of a code point. -/
def toHex4 (n : Nat) : String :=
  String.mk [ toHexDigit (n / 4096 % 16), toHexDigit (n / 256 % 16),
              toHexDigit (n / 16 % 16), toHexDigit (n % 16) ]

/-- JSON string escaping as performed by Python `json.dumps` with its
default `ensure_ascii`: quote and backslash are escaped, characters
outside printable ASCII are written as a `\u` escape (all characters
appearing in the server's strings lie in the basic multilingual plane). -/
def jsonEscapeChar (c : Char) : String :=
  if c = '"' then "\\\""
  else if c = '\\' then "\\\\"
  else if c.toNat < 32 ∨ c.toNat > 126 then "\\u" ++ toHex4 c.toNat
  else String.singleton c

/-- A JSON string literal for `s`. -/
def jsonStr (s : String) : String :=
  "\"" ++ String.join (s.toList.map jsonEscapeChar) ++ "\""

/-- JSON rendering of one step dict, keys in insertion order. -/
def jsonStep (s : Step) : String :=
  "\x7b\"name\": " ++ jsonStr s.name ++ ", \"description\": " ++ jsonStr s.description ++
    ", \"image\": " ++ jsonStr s.image ++ "\x7d"

/-- Python `json.dumps(result)` restricted to the two dict shapes
`run_pipeline` produces. -/
def jsonDumps (r : PipelineResult) : String :=
  match r.steps, r.error with
  | some l, _ => "\x7b\"steps\": [" ++ String.intercalate ", " (l.map jsonStep) ++ "]\x7d"
  | none, some e => "\x7b\"error\": " ++ jsonStr e ++ "\x7d"
  | none, none => "\x7b\x7d"

/-- Source `Handler.do_POST`.  The parsing prefix
`base64.b64decode(json.loads(body)["image"])` is modelled by the
`jsonImage` argument; `none` stands for the exception it raises on
malformed input, which propagates out of the handler uncaught (`do_POST`
then yields `none`: no response is produced by the handler code). -/
def do_POST (cv : CV2) (jsonImage : List Nat → Option (List Nat))
    (path : String) (body : List Nat) : Option HttpResponse :=
  if path ≠ "/process" then some ⟨404, none, ""⟩
  else
    match jsonImage body with
    | none => none
    | some img_bytes =>
        some ⟨200, some "application/json", jsonDumps (run_pipeline cv img_bytes)⟩

/-- A concrete interface instance used by witnesses: decoding fails exactly
on the empty byte string and otherwise yields a 1×1 raster with all
channels equal to `p`; every filter is the identity on the raster and
encoding always yields the single byte 77. -/
def cvConst (p : Nat) : CV2 :=
  ⟨ fun b _ => if b.isEmpty then none else some ⟨[[(p, p, p)]]⟩,
    fun _ _ => some [77],
    fun o => ⟨o.pixels.map (fun row => row.map (fun q => q.1))⟩,
    fun g => ⟨g.pixels.map (fun row => row.map (fun q => (q, q, q)))⟩,
    fun g _ _ _ => g,
    fun _ _ g => g,
    fun g _ _ _ _ _ => g,
    fun _ _ => [[1, 1], [1, 1]],
    fun g _ _ _ => g,
    fun g _ => g,
    fun g _ _ => g,
    fun g _ _ => g ⟩

/-- The inversion note appended to the step-6 description, as a function of
the decoded input. -/
def invert_noteOf (cv : CV2) (o : ImgBGR) : String :=
  if 2 * countAbove 127 (closedOf cv o) < size (closedOf cv o) then
    " (inverted — detected dark background)"
  else " (no inversion needed)"

/-- The ten-element step list `run_pipeline` emits on a decode success,
written as a function of the decoded raster `o` (definitionally equal to
the list built inline by `run_pipeline`). -/
def stepsOf (cv : CV2) (o : ImgBGR) : List Step :=
  [ ⟨ "Original",
      "Input image as received (" ++ toString (widthOf o) ++ "×" ++ toString (heightOf o) ++ ")",
      img_to_base64 cv o ".jpg" ⟩,
    ⟨ "① Grayscale",
      "Convert to single-channel grayscale. Removes color noise, reduces data for processing.",
      img_to_base64 cv (cv.cvtColor_GRAY2BGR (grayOf cv o)) ".jpg" ⟩,
    ⟨ "② Bilateral Filter",
      "Denoise while preserving edges. d=9, σColor=75, σSpace=75. Smooths paper texture without blurring pencil lines.",
      img_to_base64 cv (cv.cvtColor_GRAY2BGR (bilateralOf cv o)) ".jpg" ⟩,
    ⟨ "③ CLAHE",
      "Contrast Limited Adaptive Histogram Equalization. clipLimit=3.0, grid=8×8. Makes faint pencil strokes visible without blowing out highlights.",
      img_to_base64 cv (cv.cvtColor_GRAY2BGR (enhancedOf cv o)) ".jpg" ⟩,
    ⟨ "④ Adaptive Threshold",
      "Gaussian adaptive threshold. blockSize=21, C=10. Separates lines from background even with uneven lighting. Paper → white, lines → black.",
      img_to_base64 cv (cv.cvtColor_GRAY2BGR (threshOf cv o)) ".jpg" ⟩,
    ⟨ "⑤ Morphological Close",
      "Close operation with 2×2 ellipse kernel. Fills tiny gaps in pencil lines without thickening them too much.",
      img_to_base64 cv (cv.cvtColor_GRAY2BGR (closedOf cv o)) ".jpg" ⟩,
    ⟨ "⑥ Final Cleanup",
      "Median blur (3px) to remove speckles" ++ invert_noteOf cv o ++ ". Clean dark lines on white background, ready for Gemini.",
      img_to_base64 cv (cv.cvtColor_GRAY2BGR (finalOf cv o)) ".jpg" ⟩,
    ⟨ "Alt A: Light Touch",
      "Less aggressive threshold (blockSize=31, C=6). Preserves more subtle shading and detail at the cost of some background noise.",
      img_to_base64 cv (cv.cvtColor_GRAY2BGR
        (cv.adaptiveThreshold (enhancedOf cv o) 255 ADAPTIVE_THRESH_GAUSSIAN_C THRESH_BINARY 31 6)) ".jpg" ⟩,
    ⟨ "Alt B: CLAHE Only (No Threshold)",
      "Just contrast enhancement + brightness boost (α=1.3, β=40). Preserves all tonal information — pencil pressure, shading, soft edges. Least destructive.",
      img_to_base64 cv (cv.cvtColor_GRAY2BGR (cv.convertScaleAbs (enhancedOf cv o) (13 / 10) 40)) ".jpg" ⟩,
    ⟨ "Alt C: Canny Edge Detection",
      "Canny edges (low=30, high=100). Extracts clean line art. Very clean but loses all shading and pencil weight information.",
      img_to_base64 cv (cv.cvtColor_GRAY2BGR (bitwise_not (cv.Canny (bilateralOf cv o) 30 100))) ".jpg" ⟩ ]

lemma steps_run_pipeline (cv : CV2) (b : List Nat) (o : ImgBGR)
    (hdec : cv.imdecode (np_frombuffer b) IMREAD_COLOR = some o) :
    (run_pipeline cv b).steps = some (stepsOf cv o) := by
  simp only [np_frombuffer] at hdec
  simp only [run_pipeline, np_frombuffer, hdec]
  rfl

lemma error_run_pipeline (cv : CV2) (b : List Nat) (o : ImgBGR)
    (hdec : cv.imdecode (np_frombuffer b) IMREAD_COLOR = some o) :
    (run_pipeline cv b).error = none := by
  simp only [np_frombuffer] at hdec
  simp only [run_pipeline, np_frombuffer, hdec]

lemma img_to_base64_ne_empty (cv : CV2) (img : ImgBGR) (fmt : String)
    (h : (cv.imencode fmt img).isSome) : img_to_base64 cv img fmt ≠ "" := by
  obtain ⟨buf, hb⟩ := Option.isSome_iff_exists.mp h
  intro hEq
  simp only [img_to_base64, hb] at hEq
  have hlen := congrArg String.length hEq
  simp only [String.length_append] at hlen
  have h5 : ( "data:" : String).length = 5 := rfl
  have h8 : ( ";base64," : String).length = 8 := rfl
  have h0 : ( "" : String).length = 0 := rfl
  omega

/-- Claim C2 counterexample: `do_GET "/process"` answers with status 200
(the static page), not 404. -/
theorem do_GET_process_status_200 :
    (do_GET "/process").status = 200 ∧ (do_GET "/process").status ≠ 404 :=
  ⟨rfl, by decide⟩

/-- Claim C2 (amended): a POST request to any path other than /process is
answered 404 with empty body, while a GET request to any path — including
/process — is answered 200 with the static HTML page, because `do_GET`
never inspects the path. -/
theorem handler_routing (cv : CV2) (jsonImage : List Nat → Option (List Nat))
    (path : String) (body : List Nat) (hne : path ≠ "/process") :
    do_POST cv jsonImage path body = some ⟨404, none, ""⟩ ∧
    ∀ p : String, do_GET p = ⟨200, some "text/html", HTML_PAGE⟩ := by
  constructor
  · simp only [do_POST, if_pos hne]
  · intro p; rfl

theorem handler_routing_witness :
    do_POST (cvConst 0) (fun _ => none) "/badpath" [] = some ⟨404, none, ""⟩ ∧
    ∀ p : String, do_GET p = ⟨200, some "text/html", HTML_PAGE⟩ :=
  handler_routing (cvConst 0) (fun _ => none) "/badpath" [] (by decide)

/-- Claim C3: when the input bytes do not decode, `run_pipeline` returns
the error-tagged dict with no steps entry and no partial step list; and on
every input exactly one of the two tags is present. -/
theorem run_pipeline_error_tagged (cv : CV2) (b : List Nat) :
    (cv.imdecode (np_frombuffer b) IMREAD_COLOR = none →
      (run_pipeline cv b).error = some "Failed to decode image" ∧
      (run_pipeline cv b).steps = none) ∧
    (run_pipeline cv b).error.isSome = !(run_pipeline cv b).steps.isSome := by
  constructor
  · intro h
    simp only [np_frombuffer] at h
    constructor <;> simp only [run_pipeline, np_frombuffer, h]
  · rcases hd : cv.imdecode b IMREAD_COLOR with _ | o <;>
      simp only [run_pipeline, np_frombuffer, hd] <;> rfl

theorem run_pipeline_error_tagged_witness :
    (run_pipeline (cvConst 255) []).error = some "Failed to decode image" ∧
    (run_pipeline (cvConst 255) []).steps = none :=
  (run_pipeline_error_tagged (cvConst 255) []).1 rfl

/-- Claim C4: a POST to /process whose body parses is answered with HTTP
200 and Content-Type application/json whatever `run_pipeline` returned;
the pipeline outcome only determines the JSON body. -/
theorem do_POST_process_http_ok (cv : CV2) (jsonImage : List Nat → Option (List Nat))
    (body img_bytes : List Nat) (hp : jsonImage body = some img_bytes) :
    do_POST cv jsonImage "/process" body =
      some ⟨200, some "application/json", jsonDumps (run_pipeline cv img_bytes)⟩ := by
  simp only [do_POST, ne_eq, not_true_eq_false, if_false, hp]

theorem do_POST_process_http_ok_witness :
    do_POST (cvConst 255) (fun _ => some []) "/process" [] =
      some ⟨200, some "application/json", jsonDumps (run_pipeline (cvConst 255) [])⟩ :=
  do_POST_process_http_ok (cvConst 255) (fun _ => some []) [] [] rfl

/-- Claim C8: `run_pipeline` is deterministic — two invocations on equal
input byte strings yield equal results, every encoded image string
included, once the library implementation `cv` is held fixed. -/
theorem run_pipeline_deterministic (cv : CV2) (b1 b2 : List Nat) (h : b1 = b2) :
    run_pipeline cv b1 = run_pipeline cv b2 := by rw [h]

theorem run_pipeline_deterministic_witness :
    run_pipeline (cvConst 255) [1] = run_pipeline (cvConst 255) [1] :=
  run_pipeline_deterministic (cvConst 255) [1] [1] rfl

/-- Claim C1 counterexample: on a decodable input the pipeline emits ten
labeled steps, not nine — the spec step count omits the leading Original
step. -/
theorem run_pipeline_not_nine_steps :
    (run_pipeline (cvConst 255) [1]).steps.map List.length = some 10 ∧ (10 : Nat) ≠ 9 :=
  ⟨rfl, by decide⟩

/-- Claim C1 (amended): for every decodable input the pipeline returns
exactly ten labeled steps — the Original echo of the input, the six main
steps and the three alternatives — in the fixed documented order with the
fixed literal names; the descriptions of the six steps that are literal
constants in the source are exactly those constants (the Original
description embeds the decoded dimensions and the Final Cleanup
description appends one of two polarity notes); and when every imencode
call succeeds, each step carries a non-empty encoded image string. -/
theorem run_pipeline_ten_steps (cv : CV2) (b : List Nat) (o : ImgBGR)
    (hdec : cv.imdecode (np_frombuffer b) IMREAD_COLOR = some o)
    (henc : ∀ fmt img, (cv.imencode fmt img).isSome) :
    ∃ l, (run_pipeline cv b).steps = some l ∧ l.length = 10 ∧
      l.map Step.name =
        [ "Original", "① Grayscale", "② Bilateral Filter", "③ CLAHE",
          "④ Adaptive Threshold", "⑤ Morphological Close", "⑥ Final Cleanup",
          "Alt A: Light Touch", "Alt B: CLAHE Only (No Threshold)",
          "Alt C: Canny Edge Detection" ] ∧
      (l.get? 1).map Step.description =
        some "Convert to single-channel grayscale. Removes color noise, reduces data for processing." ∧
      (l.get? 2).map Step.description =
        some "Denoise while preserving edges. d=9, σColor=75, σSpace=75. Smooths paper texture without blurring pencil lines." ∧
      (l.get? 3).map Step.description =
        some "Contrast Limited Adaptive Histogram Equalization. clipLimit=3.0, grid=8×8. Makes faint pencil strokes visible without blowing out highlights." ∧
      (l.get? 4).map Step.description =
        some "Gaussian adaptive threshold. blockSize=21, C=10. Separates lines from background even with uneven lighting. Paper → white, lines → black." ∧
      (l.get? 5).map Step.description =
        some "Close operation with 2×2 ellipse kernel. Fills tiny gaps in pencil lines without thickening them too much." ∧
      (l.get? 7).map Step.description =
        some "Less aggressive threshold (blockSize=31, C=6). Preserves more subtle shading and detail at the cost of some background noise." ∧
      (l.get? 8).map Step.description =
        some "Just contrast enhancement + brightness boost (α=1.3, β=40). Preserves all tonal information — pencil pressure, shading, soft edges. Least destructive." ∧
      (l.get? 9).map Step.description =
        some "Canny edges (low=30, high=100). Extracts clean line art. Very clean but loses all shading and pencil weight information." ∧
      ∀ s ∈ l, s.image ≠ "" := by
  refine ⟨stepsOf cv o, steps_run_pipeline cv b o hdec,
    rfl, rfl, rfl, rfl, rfl, rfl, rfl, rfl, rfl, rfl, ?_⟩
  intro s hs
  simp only [stepsOf, List.mem_cons, List.not_mem_nil, or_false] at hs
  rcases hs with rfl | rfl | rfl | rfl | rfl | rfl | rfl | rfl | rfl | rfl <;>
    exact img_to_base64_ne_empty _ _ _ (henc _ _)

theorem run_pipeline_ten_steps_witness :
    ∃ l, (run_pipeline (cvConst 255) [1]).steps = some l ∧ l.length = 10 ∧
      ∀ s ∈ l, s.image ≠ "" := by
  obtain ⟨l, h1, h2, -, -, -, -, -, -, -, -, -, h3⟩ :=
    run_pipeline_ten_steps (cvConst 255) [1] ⟨[[(255, 255, 255)]]⟩ rfl (fun _ _ => rfl)
  exact ⟨l, h1, h2, h3⟩

/-- Claim C10: on every decode success the first emitted step is named
Original, its description embeds the decoded width and height as
"Input image as received (w×h)", its image is the re-encoded input raster,
and it precedes the grayscale step and all others. -/
theorem run_pipeline_first_step_original (cv : CV2) (b : List Nat) (o : ImgBGR)
    (hdec : cv.imdecode (np_frombuffer b) IMREAD_COLOR = some o) :
    ∃ l, (run_pipeline cv b).steps = some l ∧
      l.get? 0 = some ⟨ "Original",
        "Input image as received (" ++ toString (widthOf o) ++ "×" ++ toString (heightOf o) ++ ")",
        img_to_base64 cv o ".jpg" ⟩ ∧
      (l.get? 1).map Step.name = some "① Grayscale" :=
  ⟨stepsOf cv o, steps_run_pipeline cv b o hdec, rfl, rfl⟩

theorem run_pipeline_first_step_original_witness :
    ∃ l, (run_pipeline (cvConst 255) [1]).steps = some l ∧
      (l.get? 0).map Step.name = some "Original" := by
  obtain ⟨l, h1, h2, -⟩ :=
    run_pipeline_first_step_original (cvConst 255) [1] ⟨[[(255, 255, 255)]]⟩ rfl
  exact ⟨l, h1, by rw [h2]; rfl⟩

/-- Claim C9: every emitted step image is produced by widening some raster
to three channels and handing it to `img_to_base64` with the `.jpg` codec;
and whenever the `.jpg` encoder succeeds the resulting data URL carries the
matching MIME tag image/jpeg. -/
theorem steps_encoded_jpeg_data_url :
    (∀ (cv : CV2) (b : List Nat) (l : List Step), (run_pipeline cv b).steps = some l →
      ∀ s ∈ l, ∃ bgr : ImgBGR, s.image = img_to_base64 cv bgr ".jpg") ∧
    (∀ (cv : CV2) (img : ImgBGR) (buf : List Nat), cv.imencode ".jpg" img = some buf →
      img_to_base64 cv img ".jpg" = "data:image/jpeg;base64," ++ b64encode buf) := by
  constructor
  · intro cv b l hl s hs
    rcases hd : cv.imdecode b IMREAD_COLOR with _ | o
    · have hnone : (run_pipeline cv b).steps = none := by
        simp only [run_pipeline, np_frombuffer, hd]
      rw [hl] at hnone
      exact absurd hnone (by simp)
    · have hsteps := steps_run_pipeline cv b o hd
      rw [hl] at hsteps
      obtain rfl : l = stepsOf cv o := Option.some.inj hsteps
      simp only [stepsOf, List.mem_cons, List.not_mem_nil, or_false] at hs
      rcases hs with rfl | rfl | rfl | rfl | rfl | rfl | rfl | rfl | rfl | rfl <;> exact ⟨_, rfl⟩
  · intro cv img buf h
    simp only [img_to_base64, h]
    simp only [if_true]
    rfl

theorem steps_encoded_jpeg_data_url_witness :
    (∃ bgr : ImgBGR,
      ((stepsOf (cvConst 255) ⟨[[(255, 255, 255)]]⟩).headD ⟨ "", "", "" ⟩).image =
        img_to_base64 (cvConst 255) bgr ".jpg") ∧
    img_to_base64 (cvConst 255) ⟨[[(255, 255, 255)]]⟩ ".jpg" =
      "data:image/jpeg;base64," ++ b64encode [77] := by
  constructor
  · exact steps_encoded_jpeg_data_url.1 (cvConst 255) [1]
      (stepsOf (cvConst 255) ⟨[[(255, 255, 255)]]⟩) rfl _ (List.mem_cons_self _ _)
  · exact steps_encoded_jpeg_data_url.2 (cvConst 255) ⟨[[(255, 255, 255)]]⟩ [77] rfl

/-- Claim C6: the main chain applies, in order and each on the stated prior
intermediate, the bilateral filter (9, 75, 75) to the grayscale image, CLAHE
(3.0, 8×8) to `bilateral`, Gaussian adaptive binary thresholding (21, 10)
to `enhanced`, a one-iteration morphological close with a 2×2 elliptical
kernel to `thresh`, and a 3×3 median blur producing the final image. -/
theorem run_pipeline_main_chain (cv : CV2) (b : List Nat) (o : ImgBGR)
    (hdec : cv.imdecode (np_frombuffer b) IMREAD_COLOR = some o) :
    ∃ l, (run_pipeline cv b).steps = some l ∧
      (l.get? 2).map Step.image = some (img_to_base64 cv (cv.cvtColor_GRAY2BGR
        (cv.bilateralFilter (cv.cvtColor_BGR2GRAY o) 9 75 75)) ".jpg") ∧
      (l.get? 3).map Step.image = some (img_to_base64 cv (cv.cvtColor_GRAY2BGR
        (cv.createCLAHE 3 (8, 8)
          (cv.bilateralFilter (cv.cvtColor_BGR2GRAY o) 9 75 75))) ".jpg") ∧
      (l.get? 4).map Step.image = some (img_to_base64 cv (cv.cvtColor_GRAY2BGR
        (cv.adaptiveThreshold
          (cv.createCLAHE 3 (8, 8) (cv.bilateralFilter (cv.cvtColor_BGR2GRAY o) 9 75 75))
          255 ADAPTIVE_THRESH_GAUSSIAN_C THRESH_BINARY 21 10)) ".jpg") ∧
      (l.get? 5).map Step.image = some (img_to_base64 cv (cv.cvtColor_GRAY2BGR
        (cv.morphologyEx
          (cv.adaptiveThreshold
            (cv.createCLAHE 3 (8, 8) (cv.bilateralFilter (cv.cvtColor_BGR2GRAY o) 9 75 75))
            255 ADAPTIVE_THRESH_GAUSSIAN_C THRESH_BINARY 21 10)
          MORPH_CLOSE (cv.getStructuringElement MORPH_ELLIPSE (2, 2)) 1)) ".jpg") ∧
      (l.get? 6).map Step.image = some (img_to_base64 cv (cv.cvtColor_GRAY2BGR
        (cv.medianBlur (polarityOf cv o) 3)) ".jpg") :=
  ⟨stepsOf cv o, steps_run_pipeline cv b o hdec, rfl, rfl, rfl, rfl, rfl⟩

theorem run_pipeline_main_chain_witness :
    ∃ l, (run_pipeline (cvConst 255) [1]).steps = some l ∧
      (l.get? 2).map Step.image = some (img_to_base64 (cvConst 255)
        ((cvConst 255).cvtColor_GRAY2BGR
          ((cvConst 255).bilateralFilter
            ((cvConst 255).cvtColor_BGR2GRAY ⟨[[(255, 255, 255)]]⟩) 9 75 75)) ".jpg") := by
  obtain ⟨l, h1, h2, -, -, -, -⟩ :=
    run_pipeline_main_chain (cvConst 255) [1] ⟨[[(255, 255, 255)]]⟩ rfl
  exact ⟨l, h1, h2⟩

/-- Claim C7: the three alternatives are computed from already-produced
intermediates — Alt A is the adaptive threshold (31, 6) of `enhanced`,
Alt B is the linear rescale of `enhanced` with scale 1.3 and offset 40 and
no thresholding, Alt C is Canny (30, 100) on `bilateral` followed by
inversion of the edge image. -/
theorem run_pipeline_alternatives (cv : CV2) (b : List Nat) (o : ImgBGR)
    (hdec : cv.imdecode (np_frombuffer b) IMREAD_COLOR = some o) :
    ∃ l, (run_pipeline cv b).steps = some l ∧
      (l.get? 7).map Step.image = some (img_to_base64 cv (cv.cvtColor_GRAY2BGR
        (cv.adaptiveThreshold
          (cv.createCLAHE 3 (8, 8) (cv.bilateralFilter (cv.cvtColor_BGR2GRAY o) 9 75 75))
          255 ADAPTIVE_THRESH_GAUSSIAN_C THRESH_BINARY 31 6)) ".jpg") ∧
      (l.get? 8).map Step.image = some (img_to_base64 cv (cv.cvtColor_GRAY2BGR
        (cv.convertScaleAbs
          (cv.createCLAHE 3 (8, 8) (cv.bilateralFilter (cv.cvtColor_BGR2GRAY o) 9 75 75))
          (13 / 10) 40)) ".jpg") ∧
      (l.get? 9).map Step.image = some (img_to_base64 cv (cv.cvtColor_GRAY2BGR
        (bitwise_not
          (cv.Canny (cv.bilateralFilter (cv.cvtColor_BGR2GRAY o) 9 75 75) 30 100))) ".jpg") :=
  ⟨stepsOf cv o, steps_run_pipeline cv b o hdec, rfl, rfl, rfl⟩

theorem run_pipeline_alternatives_witness :
    ∃ l, (run_pipeline (cvConst 255) [1]).steps = some l ∧
      (l.get? 9).map Step.image = some (img_to_base64 (cvConst 255)
        ((cvConst 255).cvtColor_GRAY2BGR
          (bitwise_not
            ((cvConst 255).Canny
              ((cvConst 255).bilateralFilter
                ((cvConst 255).cvtColor_BGR2GRAY ⟨[[(255, 255, 255)]]⟩) 9 75 75) 30 100))) ".jpg") := by
  obtain ⟨l, h1, -, -, h2⟩ :=
    run_pipeline_alternatives (cvConst 255) [1] ⟨[[(255, 255, 255)]]⟩ rfl
  exact ⟨l, h1, h2⟩

lemma filter_sum_eq_of_all (t : Nat) (l : List (List Nat))
    (h : ∀ row ∈ l, ∀ p ∈ row, t < p) :
    (l.map (fun row => (row.filter (fun p => decide (t < p))).length)).sum =
      (l.map List.length).sum := by
  induction l with
  | nil => rfl
  | cons r rs ih =>
    simp only [List.map_cons, List.sum_cons]
    have hr : (r.filter (fun p => decide (t < p))) = r :=
      List.filter_eq_self.mpr (fun a ha => decide_eq_true (h r (List.mem_cons_self r rs) a ha))
    rw [hr, ih (fun row hrow => h row (List.mem_cons_of_mem r hrow))]

lemma filter_sum_eq_zero (t : Nat) (l : List (List Nat))
    (h : ∀ row ∈ l, ∀ p ∈ row, ¬ t < p) :
    (l.map (fun row => (row.filter (fun p => decide (t < p))).length)).sum = 0 := by
  induction l with
  | nil => rfl
  | cons r rs ih =>
    simp only [List.map_cons, List.sum_cons]
    have hr : (r.filter (fun p => decide (t < p))) = [] :=
      List.filter_eq_nil_iff.mpr
        (fun a ha => by simpa using h r (List.mem_cons_self r rs) a ha)
    rw [hr]
    simp only [List.length_nil, Nat.zero_add]
    exact ih (fun row hrow => h row (List.mem_cons_of_mem r hrow))

lemma countAbove_white (g : ImgGray) (h : ∀ row ∈ g.pixels, ∀ p ∈ row, p = 255) :
    countAbove 127 g = size g :=
  filter_sum_eq_of_all 127 g.pixels
    (fun row hr p hp => by rw [h row hr p hp]; decide)

lemma countAbove_black (g : ImgGray) (h : ∀ row ∈ g.pixels, ∀ p ∈ row, p = 0) :
    countAbove 127 g = 0 :=
  filter_sum_eq_zero 127 g.pixels
    (fun row hr p hp => by rw [h row hr p hp]; decide)

lemma ratio_lt_half_iff (c s : Nat) (hs : 0 < s) :
    ((c : ℚ) / (s : ℚ) < 1 / 2) ↔ 2 * c < s := by
  rw [div_lt_div_iff₀ (by exact_mod_cast hs) (by norm_num : (0 : ℚ) < 2)]
  rw [one_mul, mul_comm]
  exact_mod_cast Iff.rfl

/-- Claim C5: the polarity step compares the fraction of `closed` pixels
above 127 against 0.5 — below 0.5 every pixel value is inverted and the
final description reads "inverted — detected dark background", otherwise
the raster is left unchanged and it reads "no inversion needed"; an
all-white `closed` raster is not inverted, an all-black one is. -/
theorem run_pipeline_polarity (cv : CV2) (b : List Nat) (o : ImgBGR)
    (hdec : cv.imdecode (np_frombuffer b) IMREAD_COLOR = some o)
    (hpos : 0 < size (closedOf cv o)) :
    ∃ l, (run_pipeline cv b).steps = some l ∧
      (((countAbove 127 (closedOf cv o) : ℚ) / (size (closedOf cv o) : ℚ) < 1 / 2 →
          polarityOf cv o = bitwise_not (closedOf cv o) ∧
          (l.get? 6).map Step.description =
            some "Median blur (3px) to remove speckles (inverted — detected dark background). Clean dark lines on white background, ready for Gemini.") ∧
       (¬ ((countAbove 127 (closedOf cv o) : ℚ) / (size (closedOf cv o) : ℚ) < 1 / 2) →
          polarityOf cv o = closedOf cv o ∧
          (l.get? 6).map Step.description =
            some "Median blur (3px) to remove speckles (no inversion needed). Clean dark lines on white background, ready for Gemini.") ∧
       ((∀ row ∈ (closedOf cv o).pixels, ∀ p ∈ row, p = 255) →
          polarityOf cv o = closedOf cv o) ∧
       ((∀ row ∈ (closedOf cv o).pixels, ∀ p ∈ row, p = 0) →
          polarityOf cv o = bitwise_not (closedOf cv o))) := by
  refine ⟨stepsOf cv o, steps_run_pipeline cv b o hdec, ?_, ?_, ?_, ?_⟩
  · intro hlt
    have hc : 2 * countAbove 127 (closedOf cv o) < size (closedOf cv o) :=
      (ratio_lt_half_iff _ _ hpos).mp hlt
    constructor
    · unfold polarityOf
      rw [if_pos hc]
    · have h6 : ((stepsOf cv o).get? 6).map Step.description =
        some ("Median blur (3px) to remove speckles" ++
          (if 2 * countAbove 127 (closedOf cv o) < size (closedOf cv o) then
            " (inverted — detected dark background)"
           else " (no inversion needed)") ++
          ". Clean dark lines on white background, ready for Gemini.") := rfl
      rw [h6, if_pos hc]
      rfl
  · intro hge
    have hc : ¬ 2 * countAbove 127 (closedOf cv o) < size (closedOf cv o) :=
      fun hcc => hge ((ratio_lt_half_iff _ _ hpos).mpr hcc)
    constructor
    · unfold polarityOf
      rw [if_neg hc]
    · have h6 : ((stepsOf cv o).get? 6).map Step.description =
        some ("Median blur (3px) to remove speckles" ++
          (if 2 * countAbove 127 (closedOf cv o) < size (closedOf cv o) then
            " (inverted — detected dark background)"
           else " (no inversion needed)") ++
          ". Clean dark lines on white background, ready for Gemini.") := rfl
      rw [h6, if_neg hc]
      rfl
  · intro hw
    have hcount := countAbove_white (closedOf cv o) hw
    have hc : ¬ 2 * countAbove 127 (closedOf cv o) < size (closedOf cv o) := by
      rw [hcount]; omega
    unfold polarityOf
    rw [if_neg hc]
  · intro hb0
    have hcount := countAbove_black (closedOf cv o) hb0
    have hc : 2 * countAbove 127 (closedOf cv o) < size (closedOf cv o) := by
      rw [hcount]; omega
    unfold polarityOf
    rw [if_pos hc]

theorem run_pipeline_polarity_witness :
    polarityOf (cvConst 255) ⟨[[(255, 255, 255)]]⟩ =
      closedOf (cvConst 255) ⟨[[(255, 255, 255)]]⟩ ∧
    polarityOf (cvConst 0) ⟨[[(0, 0, 0)]]⟩ =
      bitwise_not (closedOf (cvConst 0) ⟨[[(0, 0, 0)]]⟩) := by
  constructor
  · obtain ⟨l, -, -, -, hwhite, -⟩ :=
      run_pipeline_polarity (cvConst 255) [1] ⟨[[(255, 255, 255)]]⟩ rfl (by decide)
    exact hwhite (by decide)
  · obtain ⟨l, -, -, -, -, hblack⟩ :=
      run_pipeline_polarity (cvConst 0) [1] ⟨[[(0, 0, 0)]]⟩ rfl (by decide)
    exact hblack (by decide)
